import Mathlib

/-!
Verification development for the insurance-actuary agent (src/agent.py).

The Python source is shallowly embedded: pure string manipulation and
list processing are translated into executable Lean functions, external
effects (the embedding provider, the Postgres/Neo4j drivers, the
filesystem, the pandas markdown renderer and the language model) are
passed in as explicit parameters or `Except` outcomes, and numeric
scores are modelled over `ℚ`.
-/

/-! ## Python string primitives

Models of the Python string operations used by the scoring and SQL
classification code: `startswith`, substring containment (`in`),
whitespace `split()`, `strip()` and `upper()`.  Strings are handled as
`List Char` (Python slices and `in` operate on code points).
-/

/-- Model of Python `hay.startswith(needle)` on character lists. -/
def pyStartsWith : List Char → List Char → Bool
  | _, [] => true
  | [], _ :: _ => false
  | h :: hs, n :: ns => h = n && pyStartsWith hs ns

/-- Model of Python `needle in hay` (substring containment). -/
def pyContains (hay needle : List Char) : Bool :=
  match hay with
  | [] => pyStartsWith [] needle
  | _ :: t => pyStartsWith hay needle || pyContains t needle

/-- Accumulator-based worker for Python `str.split()`: splits on runs of
whitespace and never produces empty tokens. -/
def splitWsAux : List Char → List Char → List (List Char)
  | [], acc => if acc.isEmpty then [] else [acc.reverse]
  | c :: cs, acc =>
    if c.isWhitespace then
      if acc.isEmpty then splitWsAux cs [] else acc.reverse :: splitWsAux cs []
    else
      splitWsAux cs (c :: acc)

/-- Model of Python `s.split()` with no separator argument. -/
def splitWs (cs : List Char) : List (List Char) :=
  splitWsAux cs []

/-- Model of Python `s.strip()`: drop whitespace from both ends. -/
def pyStrip (cs : List Char) : List Char :=
  ((cs.dropWhile Char.isWhitespace).reverse.dropWhile Char.isWhitespace).reverse

/-- Model of Python `s.upper()` (ASCII case folding, which is all the
SQL keyword check needs). -/
def pyUpper (cs : List Char) : List Char :=
  cs.map Char.toUpper

/-- Model of Python `s[:n]`: the first n code points of s. -/
def pySlice (s : String) (n : ℕ) : String :=
  String.mk (s.toList.take n)

theorem pyStartsWith_append_self (n post : List Char) :
    pyStartsWith (n ++ post) n = true := by
  induction n with
  | nil => cases post <;> rfl
  | cons c cs ih => simp [pyStartsWith, ih]

theorem pyContains_of_decomp (pre n post : List Char) :
    pyContains (pre ++ n ++ post) n = true := by
  induction pre with
  | nil =>
    cases h : (n ++ post : List Char) with
    | nil =>
      rcases List.append_eq_nil.mp h with ⟨hn, hp⟩
      subst hn
      subst hp
      rfl
    | cons a l =>
      simp only [List.nil_append, pyContains, h]
      rw [← h]
      simp [pyStartsWith_append_self]
  | cons c cs ih =>
    cases hm : (cs ++ n ++ post : List Char) with
    | nil =>
      rcases List.append_eq_nil.mp hm with ⟨hm1, _⟩
      rcases List.append_eq_nil.mp hm1 with ⟨_, hn⟩
      subst hn
      simp [pyContains, pyStartsWith]
    | cons a l =>
      have : pyContains (c :: (cs ++ n ++ post)) n
          = (pyStartsWith (c :: (cs ++ n ++ post)) n || pyContains (cs ++ n ++ post) n) := rfl
      simp only [List.cons_append, List.append_assoc] at this ⊢
      simp only [List.append_assoc] at ih
      rw [this, ih, Bool.or_true]

theorem splitWsAux_mem_decomp (cs : List Char) :
    ∀ acc t, t ∈ splitWsAux cs acc → ∃ pre post, pre ++ t ++ post = acc.reverse ++ cs := by
  induction cs with
  | nil =>
    intro acc t ht
    by_cases h : acc.isEmpty
    · simp [splitWsAux, h] at ht
    · simp [splitWsAux, h] at ht
      exact ⟨[], [], by simp [ht]⟩
  | cons c cs ih =>
    intro acc t ht
    by_cases hw : c.isWhitespace
    · by_cases h : acc.isEmpty
      · simp only [splitWsAux, hw, if_pos h, if_true] at ht
        rcases ih [] t ht with ⟨pre, post, hp⟩
        exact ⟨acc.reverse ++ [c] ++ pre, post, by
          simp only [List.reverse_nil, List.nil_append] at hp
          simp [List.append_assoc, hp]⟩
      · simp only [splitWsAux, hw, if_neg h, if_true, List.mem_cons] at ht
        rcases ht with ht | ht
        · exact ⟨[], [c] ++ cs, by simp [ht]⟩
        · rcases ih [] t ht with ⟨pre, post, hp⟩
          exact ⟨acc.reverse ++ [c] ++ pre, post, by
            simp only [List.reverse_nil, List.nil_append] at hp
            simp [List.append_assoc, hp]⟩
    · simp only [splitWsAux, hw, if_false, Bool.false_eq_true] at ht
      rcases ih (c :: acc) t ht with ⟨pre, post, hp⟩
      exact ⟨pre, post, by
        simpa [List.append_assoc] using hp⟩

theorem splitWsAux_mem_ne_nil (cs : List Char) :
    ∀ acc t, t ∈ splitWsAux cs acc → t ≠ [] := by
  induction cs with
  | nil =>
    intro acc t ht
    by_cases h : acc.isEmpty
    · simp [splitWsAux, h] at ht
    · simp [splitWsAux, h] at ht
      subst ht
      simpa [List.isEmpty_iff] using h
  | cons c cs ih =>
    intro acc t ht
    by_cases hw : c.isWhitespace
    · by_cases h : acc.isEmpty
      · simp only [splitWsAux, hw, if_pos h, if_true] at ht
        exact ih [] t ht
      · simp only [splitWsAux, hw, if_neg h, if_true, List.mem_cons] at ht
        rcases ht with ht | ht
        · subst ht
          simpa [List.isEmpty_iff] using h
        · exact ih [] t ht
    · simp only [splitWsAux, hw, if_false, Bool.false_eq_true] at ht
      exact ih (c :: acc) t ht

theorem splitWs_mem_decomp {q t : List Char} (ht : t ∈ splitWs q) :
    ∃ pre post, pre ++ t ++ post = q := by
  rcases splitWsAux_mem_decomp q [] t ht with ⟨pre, post, hp⟩
  exact ⟨pre, post, by simpa using hp⟩

theorem splitWs_mem_ne_nil {q t : List Char} (ht : t ∈ splitWs q) : t ≠ [] :=
  splitWsAux_mem_ne_nil q [] t ht

/-- A token produced by `split()` is a substring of the original string. -/
theorem pyContains_of_token {q t : List Char} (ht : t ∈ splitWs q) :
    pyContains q t = true := by
  rcases splitWs_mem_decomp ht with ⟨pre, post, hp⟩
  rw [← hp]
  exact pyContains_of_decomp pre t post

/-! ## Similarity Ranker

The external embedding provider and the floating-point cosine similarity
are modelled by an arbitrary deterministic function `sim` from a
candidate vector (the query vector is fixed) to a rational score.  All
ranking properties below hold for every such function.
-/

/-- Descending comparison on the score component, matching Python
`sort(key=lambda x: x["similarity"], reverse=True)` (a stable sort). -/
def descBySnd {α : Type} (x y : α × ℚ) : Bool :=
  decide (y.2 ≤ x.2)

theorem descBySnd_trans {α : Type} (x y z : α × ℚ) :
    descBySnd x y → descBySnd y z → descBySnd x z := by
  simp only [descBySnd, decide_eq_true_eq]
  exact fun h1 h2 => le_trans h2 h1

theorem descBySnd_total {α : Type} (x y : α × ℚ) :
    descBySnd x y || descBySnd y x := by
  simp only [descBySnd, Bool.or_eq_true, decide_eq_true_eq]
  exact le_total y.2 x.2

theorem rankTake_length {α : Type} (l : List (α × ℚ)) (k : ℕ) :
    ((l.mergeSort descBySnd).take k).length ≤ k := by
  simp [List.length_take]

theorem rankTake_sorted {α : Type} (l : List (α × ℚ)) (k : ℕ) :
    ((l.mergeSort descBySnd).take k).Pairwise (fun x y => y.2 ≤ x.2) := by
  have hs := List.sorted_mergeSort descBySnd_trans descBySnd_total l
  have hp : (l.mergeSort descBySnd).Pairwise (fun x y => y.2 ≤ x.2) := by
    refine hs.imp ?_
    intro x y h
    simpa [descBySnd] using h
  exact hp.sublist (List.take_sublist k _)

theorem rankTake_all {α : Type} (l : List (α × ℚ)) (k : ℕ) (h : l.length ≤ k) :
    ((l.mergeSort descBySnd).take k).Perm l := by
  have hlen : (l.mergeSort descBySnd).length = l.length := List.length_mergeSort l
  rw [List.take_of_length_le (by omega)]
  exact List.mergeSort_perm l descBySnd

theorem rankTake_mem {α : Type} {x : α × ℚ} {l : List (α × ℚ)} {k : ℕ}
    (h : x ∈ (l.mergeSort descBySnd).take k) : x ∈ l :=
  (List.mergeSort_perm l descBySnd).mem_iff.mp (List.mem_of_mem_take h)

/-! ## Artifact store records and session-boosted scoring (agent.py
`search_artifacts`, lines 2429-2528) -/

/-- Persisted Artifact node fields (agent.py `save_artifact` /
`_auto_save_artifact`).  `embedding = none` models a node whose
`embedding` property is null. -/
structure Artifact where
  id : String
  name : String
  description : String
  content : String
  artifact_type : String
  source_url : String
  session_id : String
  embedding : Option (List ℚ)
deriving DecidableEq

/-- Session boost from `search_artifacts`: same-session artifacts get
`base_sim * 1.2`, others keep the raw score (agent.py lines 2483-2489). -/
def boostScore (sid asession : String) (base : ℚ) : ℚ :=
  if asession = sid then base * (12 / 10) else base

/-- Scoring loop of `search_artifacts` (lines 2477-2501): candidates
whose embedding is null or empty (Python falsy) are skipped, the rest
get the session-boosted cosine score. -/
def scoredArtifacts (sim : List ℚ → ℚ) (sid : String) (records : List Artifact) :
    List (Artifact × ℚ) :=
  records.filterMap fun a =>
    match a.embedding with
    | some e => if e.isEmpty then none else some (a, boostScore sid a.session_id (sim e))
    | none => none

/-- Full `search_artifacts` ranking pipeline: Cypher candidate fetch
(session scope when `currentOnly`, plus `embedding IS NOT NULL`),
boosted scoring, stable descending sort, top-k cut (lines 2451-2505). -/
def search_artifacts (sim : List ℚ → ℚ) (sid : String) (currentOnly : Bool)
    (store : List Artifact) (k : ℕ) : List (Artifact × ℚ) :=
  let cands := store.filter fun a => (!currentOnly || a.session_id == sid) && a.embedding.isSome
  ((scoredArtifacts sim sid cands).mergeSort descBySnd).take k

/-! ## Graph similarity search (agent.py `similarity_search`, lines
184-232) -/

/-- A fetched graph node: its label and its (possibly null) embedding. -/
structure GraphNode where
  nodeType : String
  embedding : Option (List ℚ)
deriving DecidableEq

/-- Scoring loop of `similarity_search` (lines 213-224): nodes with a
falsy embedding are skipped, never scored as zero. -/
def similarityScored (sim : List ℚ → ℚ) (nodes : List GraphNode) :
    List (GraphNode × ℚ) :=
  nodes.filterMap fun n =>
    match n.embedding with
    | some e => if e.isEmpty then none else some (n, sim e)
    | none => none

/-- Full `similarity_search` pipeline: Cypher fetch with
`n.embedding IS NOT NULL`, cosine scoring, descending sort, top-k
(lines 198-228). -/
def similarity_search (sim : List ℚ → ℚ) (nodes : List GraphNode) (k : ℕ) :
    List (GraphNode × ℚ) :=
  let fetched := nodes.filter fun n => n.embedding.isSome
  ((similarityScored sim fetched).mergeSort descBySnd).take k

/-! ## Schema Index lexical floors (agent.py `text_to_sql` lines
2030-2060 and `search_table_schema` lines 1918-1947) -/

/-- Maximum cosine similarity over a table's columns; columns with a
falsy `vector` are skipped; the running maximum starts at `0.0`
(`max_sim = 0.0` in both functions). -/
def maxColSim (sim : List ℚ → ℚ) (cols : List (Option (List ℚ))) : ℚ :=
  cols.foldl
    (fun acc c =>
      match c with
      | some v => if v.isEmpty then acc else max acc (sim v)
      | none => acc)
    0

/-- Per-table score in `text_to_sql` (lines 2036-2048): exact
containment of the (truthy) table name in the question floors the score
at 0.95, otherwise a query keyword contained in the name floors it at
0.8. -/
def tableScore_t2s (sim : List ℚ → ℚ) (question name : List Char)
    (cols : List (Option (List ℚ))) : ℚ :=
  let m := maxColSim sim cols
  if !name.isEmpty && pyContains question name then max m (95 / 100)
  else if !name.isEmpty && (splitWs question).any (fun kw => pyContains name kw) then
    max m (8 / 10)
  else m

/-- Per-table score in `search_table_schema` (lines 1923-1934): only the
0.8 keyword-containment floor exists there. -/
def tableScore_sts (sim : List ℚ → ℚ) (query name : List Char)
    (cols : List (Option (List ℚ))) : ℚ :=
  let m := maxColSim sim cols
  if (splitWs query).any (fun kw => pyContains name kw) then max m (8 / 10) else m

/-! ## String containment for result texts -/

/-- Substring containment on `String`, used to state that error texts
carry the failing statement and message. -/
def strContains (hay needle : String) : Prop :=
  pyContains hay.toList needle.toList = true

theorem strContains_of_decomp (pre mid post : String) :
    strContains (pre ++ mid ++ post) mid := by
  have h : (pre ++ mid ++ post).toList = pre.toList ++ mid.toList ++ post.toList := by
    simp [String.toList]
  unfold strContains
  rw [h]
  exact pyContains_of_decomp pre.toList mid.toList post.toList

/-! ## Artifact store operations (agent.py `save_artifact` lines
2360-2426, `_auto_save_artifact` lines 92-142, `get_artifact_content`
lines 2531-2576) -/

/-- Body of `save_artifact`: the embedding is computed over
`name + ": " + description + "\n" + content[:3000]`; a failure of the
embedding provider is caught by the surrounding `try` and the tool
returns an error string, with nothing persisted (the Neo4j writes come
after the embedding call).  On success the artifact is persisted with
`content[:50000]`. -/
def save_artifact (embed : String → Except String (List ℚ))
    (store : List Artifact)
    (freshId sid name description content artifact_type source_url : String) :
    List Artifact × String :=
  match embed (name ++ ": " ++ description ++ "\n" ++ pySlice content 3000) with
  | .error e => (store, "Artifact save error: " ++ e)
  | .ok v =>
    (store ++ [{ id := freshId, name := name, description := description
                 content := pySlice content 50000, artifact_type := artifact_type
                 source_url := source_url, session_id := sid, embedding := some v }],
     "✅ **산출물 저장 완료**\n- **ID**: " ++ freshId ++ "\n- **이름**: " ++ name
       ++ "\n- **유형**: " ++ artifact_type ++ "\n- **세션**: " ++ sid
       ++ "\n- **내용 크기**: " ++ toString content.length
       ++ " 문자\n\n이 산출물은 `search_artifacts` 도구로 검색할 수 있습니다.")

/-- Body of `_auto_save_artifact`: identical persistence logic, but the
catch-all handler returns the empty string instead of an error text. -/
def auto_save_artifact (embed : String → Except String (List ℚ))
    (store : List Artifact)
    (freshId sid name description content artifact_type source_url : String) :
    List Artifact × String :=
  match embed (name ++ ": " ++ description ++ "\n" ++ pySlice content 3000) with
  | .error _ => (store, "")
  | .ok v =>
    (store ++ [{ id := freshId, name := name, description := description
                 content := pySlice content 50000, artifact_type := artifact_type
                 source_url := source_url, session_id := sid, embedding := some v }],
     freshId)

/-- Lookup of `MATCH (a:Artifact {id: $artifact_id})` followed by
`result.single()`. -/
def findById : List Artifact → String → Option Artifact
  | [], _ => none
  | a :: rest, aid => if a.id = aid then some a else findById rest aid

/-- Retrieval core of `get_artifact_content`: returns the stored record
unchanged (the tool then formats it, or reports not-found when `none`).
No truncation happens at retrieval time. -/
def get_artifact_content (store : List Artifact) (aid : String) : Option Artifact :=
  findById store aid

theorem findById_mem {store : List Artifact} {aid : String} {a : Artifact}
    (h : findById store aid = some a) : a ∈ store := by
  induction store with
  | nil => simp [findById] at h
  | cons b rest ih =>
    by_cases hb : b.id = aid
    · simp only [findById, if_pos hb] at h
      rw [(Option.some.inj h).symm]
      exact List.mem_cons_self b rest
    · simp only [findById, if_neg hb] at h
      simp [ih h]

theorem findById_append_fresh (store : List Artifact) (a : Artifact)
    (h : ∀ b ∈ store, b.id ≠ a.id) : findById (store ++ [a]) a.id = some a := by
  induction store with
  | nil => simp [findById]
  | cons b rest ih =>
    have hb : b.id ≠ a.id := h b (by simp)
    simp only [List.cons_append, findById, if_neg hb]
    exact ih fun c hc => h c (by simp [hc])

/-! ## SQL execution (agent.py `run_postgres_sql` lines 2199-2297,
`text_to_sql` execution step lines 2113-2196)

The psycopg2 connection is modelled by a `DbOutcome`: either the
statement executed (yielding the fetched rows and the cursor rowcount)
or it raised an error message.  The pandas `to_markdown` renderer is an
external parameter. -/

/-- A fetched row: ordered column/value pairs (RealDictCursor rows). -/
abbrev Row := List (String × String)

/-- Outcome of `cursor.execute` plus the fetch/commit that follows. -/
inductive DbOutcome where
  | ok (rows : List Row) (rowcount : Int)
  | err (msg : String)
deriving DecidableEq

/-- Observable result of one SQL tool call: the returned text, the rows
actually displayed, and whether the transaction was committed or rolled
back. -/
structure PgResult where
  output : String
  displayed : List Row
  committed : Bool
  rolledBack : Bool
deriving DecidableEq

/-- Lexical read/write classification used by both SQL tools:
`sql_query.strip().upper().startswith("SELECT")`. -/
def isSelect (sql : String) : Bool :=
  pyStartsWith (pyUpper (pyStrip sql.toList)) "SELECT".toList

/-- Model of `run_postgres_sql` after a connection was obtained
(lines 2226-2297).  On a database error the transaction is rolled back
and the error template carries the statement and the message; a
successful SELECT caps the display at 25 rows; any other statement is
committed and its rowcount reported. -/
def run_postgres_sql (mdTable : List Row → String) (sql : String)
    (db : DbOutcome) : PgResult :=
  match db with
  | .err e =>
    { output := "## SQL 실행 오류\n\n```sql\n" ++ sql ++ "\n```\n\n**오류**: " ++ e ++ "\n"
      displayed := []
      committed := false
      rolledBack := true }
  | .ok rows rowcount =>
    if isSelect sql then
      if rows.isEmpty then
        { output := "## SQL 실행 결과\n\n```sql\n" ++ sql ++ "\n```\n\n조회 결과가 없습니다.\n"
          displayed := []
          committed := false
          rolledBack := false }
      else
        let total := rows.length
        let displayLimit := 25
        let displayRows := if total > displayLimit then rows.take displayLimit else rows
        let countMsg :=
          if total > displayLimit then
            "**총 " ++ toString total ++ "건** 중 상위 " ++ toString displayLimit
              ++ "건을 표시합니다."
          else "**조회 결과**: " ++ toString total ++ "건"
        let footer :=
          if total > displayLimit then
            "\n\n> 💡 더 많은 데이터가 필요하시면 조건을 추가해주세요."
          else ""
        { output := "## 📋 SQL 실행 결과\n\n```sql\n" ++ sql ++ "\n```\n\n" ++ countMsg
            ++ "\n\n" ++ mdTable displayRows ++ "\n\n**컬럼**: "
            ++ String.intercalate ", " ((rows.headD []).map Prod.fst) ++ footer ++ "\n"
          displayed := displayRows
          committed := false
          rolledBack := false }
    else
      { output := "## SQL 실행 결과\n\n```sql\n" ++ sql
          ++ "\n```\n\n쿼리가 성공적으로 실행되었습니다.\n- 영향받은 행: "
          ++ toString rowcount ++ "\n"
        displayed := []
        committed := true
        rolledBack := false }

/-- Final response template of `text_to_sql` (lines 2178-2193): the
generated SQL and the execution result are returned together. -/
def text_to_sql_wrap (question gsql tables body : String) : String :=
  "## 📊 Text-to-SQL 실행 결과\n\n### 질문\n" ++ question
    ++ "\n\n### 생성된 SQL\n```sql\n" ++ gsql ++ "\n```\n\n### 결과\n"
    ++ body ++ "\n\n### 사용된 테이블\n" ++ tables ++ "\n"

/-- Model of the execution step of `text_to_sql` (lines 2129-2193),
applied to the generated statement: same lexical classification and
25-row display cap as `run_postgres_sql`; a database error rolls back
and the returned error template carries the generated SQL and the
message. -/
def text_to_sql_exec (mdTable : List Row → String)
    (question gsql tables : String) (db : DbOutcome) : PgResult :=
  match db with
  | .err e =>
    { output := "## SQL 실행 오류\n\n**생성된 SQL**:\n```sql\n" ++ gsql
        ++ "\n```\n\n**오류**: " ++ e
        ++ "\n\n스키마를 확인하거나 질문을 더 구체적으로 해주세요.\n"
      displayed := []
      committed := false
      rolledBack := true }
  | .ok rows rowcount =>
    if isSelect gsql then
      if rows.isEmpty then
        { output := text_to_sql_wrap question gsql tables "조회 결과가 없습니다."
          displayed := []
          committed := false
          rolledBack := false }
      else if rows.length > 25 then
        { output := text_to_sql_wrap question gsql tables
            ("**총 " ++ toString rows.length ++ "건** 중 상위 " ++ toString (25 : ℕ)
              ++ "건을 표시합니다.\n\n" ++ mdTable (rows.take 25)
              ++ "\n\n> 💡 더 많은 데이터가 필요하시면 조건을 추가해주세요.")
          displayed := rows.take 25
          committed := false
          rolledBack := false }
      else
        { output := text_to_sql_wrap question gsql tables
            ("**조회 결과**: " ++ toString rows.length ++ "건\n\n" ++ mdTable rows)
          displayed := rows
          committed := false
          rolledBack := false }
    else
      { output := text_to_sql_wrap question gsql tables
          ("쿼리가 성공적으로 실행되었습니다. 영향받은 행: " ++ toString rowcount)
        displayed := []
        committed := true
        rolledBack := false }

/-! ## Streaming bridge (agent.py `_run_agent_sync` lines 2935-2973,
`run_agent_stream` lines 2976-3003)

The cross-thread FIFO queue is modelled by the sequence of events the
worker enqueues; the consumer is a function over that completed
sequence.  `workerTrace` is the worker: callback events from the run,
then an `error` event if the run raised, then — in the `finally`
block — always a final `done`. -/

inductive StreamEvent where
  | token (content : String)
  | tool_start (tool : String) (input : String)
  | tool_end (output : String)
  | error (content : String)
  | done
deriving DecidableEq

/-- Events on which the consumer loop returns. -/
def isTerminal : StreamEvent → Bool
  | .done => true
  | .error _ => true
  | _ => false

/-- Enqueue order of `_run_agent_sync`: callback events, an `error`
event when the graph run raised, and a final `done` from the `finally`
block. -/
def workerTrace (body : List StreamEvent) (exc : Option String) : List StreamEvent :=
  body ++ (match exc with | none => [] | some e => [.error e]) ++ [.done]

/-- Consumer loop of `run_agent_stream`: yield queued events in FIFO
order; on the first `done` or `error` event, join the worker thread
with `timeout=1` (the returned flag) and close the sequence.  If the
queue drains with the worker already dead, a synthesized `done` is
yielded without a join (lines 3001-3003). -/
def consumeRun : List StreamEvent → List StreamEvent × Bool
  | [] => ([.done], false)
  | e :: rest =>
    if isTerminal e then ([e], true)
    else
      let r := consumeRun rest
      (e :: r.1, r.2)

theorem consumeRun_of_terminal :
    ∀ t : List StreamEvent, t.any isTerminal = true →
      (∃ rest, (consumeRun t).1 ++ rest = t) ∧ (consumeRun t).2 = true ∧
      ∃ pre e, (consumeRun t).1 = pre ++ [e] ∧ isTerminal e = true := by
  intro t
  induction t with
  | nil => simp
  | cons e rest ih =>
    intro hany
    by_cases he : isTerminal e
    · refine ⟨⟨rest, by simp [consumeRun, he]⟩, by simp [consumeRun, he], [], e, ?_, he⟩
      simp [consumeRun, he]
    · have hrest : rest.any isTerminal = true := by
        simpa [List.any_cons, he] using hany
      rcases ih hrest with ⟨⟨tail, htail⟩, hj, pre, ev, hsplit, hterm⟩
      refine ⟨⟨tail, by simp [consumeRun, he, htail]⟩, by simp [consumeRun, he, hj],
        e :: pre, ev, ?_, hterm⟩
      simp [consumeRun, he, hsplit]

theorem workerTrace_any_terminal (body : List StreamEvent) (exc : Option String) :
    (workerTrace body exc).any isTerminal = true := by
  cases exc <;> simp [workerTrace, isTerminal]

theorem workerTrace_getLast (body : List StreamEvent) (exc : Option String) :
    (workerTrace body exc).getLast? = some .done := by
  unfold workerTrace
  exact List.getLast?_concat _

/-! ## Agent control loop (agent.py graph construction lines 2637-2646,
`run_agent` lines 2900-2906)

One AGENT turn invokes the model; `tools_condition` routes to TOOLS if
the assistant message carries tool calls, otherwise the run ends.  The
`tools → agent` edge unconditionally returns to AGENT.  The model is
abstracted as a `policy` telling whether the n-th AGENT turn requests
tools.  `runLoop` interprets the graph with explicit fuel: `none` means
the run is still alternating after `fuel` AGENT turns — the source
itself contains no step ceiling. -/

inductive Phase where
  | AGENT
  | TOOLS
  | DONE
deriving DecidableEq

/-- Conditional edge after an AGENT turn (`tools_condition`): tool
calls present routes to TOOLS, otherwise the graph ends. -/
def tools_condition (hasToolCalls : Bool) : Phase :=
  if hasToolCalls then .TOOLS else .DONE

/-- TOOLS step (`ToolNode` over the registered handlers): run each
invoked handler in order; when every handler returns a result string,
one tool message per result is appended and the `tools → agent` edge
hands control back to AGENT.  An uncaught handler exception escapes the
step as `Except.error`. -/
def toolsStep (results : List (Except String String)) :
    Except String (List String × Phase) :=
  (results.mapM fun r => r).map fun msgs => (msgs, .AGENT)

/-- Fuel-indexed interpreter of the compiled graph, counting AGENT
turns.  `some n` means the loop reached DONE after `n` AGENT turns;
`none` means it is still alternating when the fuel runs out. -/
def runLoop (policy : ℕ → Bool) : ℕ → ℕ → Option ℕ
  | 0, _ => none
  | fuel + 1, turn =>
    match tools_condition (policy turn) with
    | .TOOLS => runLoop policy fuel (turn + 1)
    | _ => some (turn + 1)

/-- A model turn that always requests another tool call. -/
def alwaysToolPolicy : ℕ → Bool := fun _ => true

theorem runLoop_alwaysTool (fuel : ℕ) :
    ∀ turn, runLoop alwaysToolPolicy fuel turn = none := by
  induction fuel with
  | zero => intro turn; rfl
  | succ n ih =>
    intro turn
    simpa [runLoop, tools_condition, alwaysToolPolicy] using ih (turn + 1)

/-! ## Tool handler exception behavior (agent.py `calculate_formula`
lines 294-307, `mcp_calculator.py`, `extract_data_to_csv` lines
792-916)

Handlers are modelled as `Except String String`: `Except.ok` is a
returned result string, `Except.error` is an exception escaping the
handler.  External effects (JSON parsing, Python `eval`, the
filesystem/pandas calls) enter as `Except` outcomes. -/

/-- Result value of `MCPCalculator.evaluate`: a dict with either an
`error` entry or the evaluated result; `render` below stands for the
Python `str()` applied to it. -/
inductive CalcOutcome where
  | errorResult (msg : String)
  | valueResult (formula : String) (value : ℚ)
deriving DecidableEq

/-- `evaluate_formula_tool` / `MCPCalculator.evaluate`: a falsy
expression yields an error dict, any `eval` exception is caught and
yields an error dict; the function never raises. -/
def evaluate_formula_tool (expression : String) (evalOutcome : Except String ℚ) :
    CalcOutcome :=
  if expression.isEmpty then .errorResult "No RHS expression found"
  else
    match evalOutcome with
    | .ok v => .valueResult expression v
    | .error e => .errorResult e

/-- `calculate_formula` handler: the whole body sits in a `try` whose
handler returns `"Calculation error: ..."`, so the handler always
returns a string (`Except.ok`). -/
def calculate_formula (parseVars : Except String (List (String × ℚ)))
    (expression : String) (evalOutcome : Except String ℚ)
    (render : CalcOutcome → String) : Except String String :=
  match parseVars with
  | .error e => .ok ("Calculation error: " ++ e)
  | .ok _ => .ok (render (evaluate_formula_tool expression evalOutcome))

/-- `extract_data_to_csv` handler: the body (lines 792-916) performs
directory creation, dataframe construction and CSV writes with no
`try`/`except` at all, so a raised exception propagates out of the
handler; on success the report names the branch-selected data type. -/
def extract_data_to_csv (fs : Except String Unit) (source_description : String)
    (autoSaveId : String) : Except String String :=
  match fs with
  | .error e => .error e
  | .ok _ =>
    let d := source_description.toList
    let dataType :=
      if pyContains d "기후".toList || pyContains d "강수량".toList
          || pyContains d "온도".toList then "기후"
      else if pyContains d "질병".toList || pyContains d "온열".toList
          || pyContains d "수인성".toList then "질병"
      else "통합"
    .ok ("## 데이터 추출 완료\n\n- **데이터 유형**: " ++ dataType ++ " 데이터"
      ++ (if autoSaveId.isEmpty then ""
          else "\n\n📁 *데이터가 자동 저장됨 (ID: " ++ autoSaveId ++ ")*"))

/-! ## Auxiliary containment and membership lemmas -/

theorem strToList_append (a b : String) : (a ++ b).toList = a.toList ++ b.toList :=
  rfl

theorem pyContains_append_left (a : List Char) {hay n : List Char}
    (h : pyContains hay n = true) : pyContains (a ++ hay) n = true := by
  induction a with
  | nil => simpa using h
  | cons c cs ih =>
    show (pyStartsWith (c :: (cs ++ hay)) n || pyContains (cs ++ hay) n) = true
    rw [ih, Bool.or_true]

theorem pyContains_self_append (n b : List Char) : pyContains (n ++ b) n = true := by
  cases hnb : n ++ b with
  | nil =>
    rcases List.append_eq_nil.mp hnb with ⟨hn, _⟩
    subst hn
    rfl
  | cons c t =>
    show (pyStartsWith (c :: t) n || pyContains t n) = true
    rw [← hnb, pyStartsWith_append_self, Bool.true_or]

theorem strContains_of_parts {hay : String} (pre mid post : String)
    (h : hay.toList = pre.toList ++ (mid.toList ++ post.toList)) : strContains hay mid := by
  unfold strContains
  rw [h]
  exact pyContains_append_left pre.toList (pyContains_self_append mid.toList post.toList)

theorem scoredArtifacts_mem {sim : List ℚ → ℚ} {sid : String}
    {l : List Artifact} {p : Artifact × ℚ} (h : p ∈ scoredArtifacts sim sid l) :
    ∃ v, p.1.embedding = some v ∧ v.isEmpty = false := by
  unfold scoredArtifacts at h
  rcases List.mem_filterMap.mp h with ⟨a, _, hf⟩
  cases hemb : a.embedding with
  | none => simp [hemb] at hf
  | some v =>
    by_cases hv : v.isEmpty
    · simp [hemb, hv] at hf
    · simp only [hemb, hv, if_false, Bool.false_eq_true, Option.some.injEq] at hf
      exact ⟨v, by rw [← hf]; exact hemb, by simpa using hv⟩

theorem similarityScored_mem {sim : List ℚ → ℚ}
    {l : List GraphNode} {p : GraphNode × ℚ} (h : p ∈ similarityScored sim l) :
    ∃ v, p.1.embedding = some v ∧ v.isEmpty = false := by
  unfold similarityScored at h
  rcases List.mem_filterMap.mp h with ⟨a, _, hf⟩
  cases hemb : a.embedding with
  | none => simp [hemb] at hf
  | some v =>
    by_cases hv : v.isEmpty
    · simp [hemb, hv] at hf
    · simp only [hemb, hv, if_false, Bool.false_eq_true, Option.some.injEq] at hf
      exact ⟨v, by rw [← hf]; exact hemb, by simpa using hv⟩

theorem pyContains_nil_needle {kw : List Char} (h : pyContains [] kw = true) : kw = [] := by
  cases kw with
  | nil => rfl
  | cons c t => simp [pyContains, pyStartsWith] at h

/-- Ranking pipeline of `search_table_schema` (lines 1936-1947): score
every fetched table, sort descending, keep the top k. -/
def search_table_schema_rank (sim : List ℚ → ℚ) (query : List Char)
    (tables : List (List Char × List (Option (List ℚ)))) (k : ℕ) :
    List ((List Char × List (Option (List ℚ))) × ℚ) :=
  ((tables.map fun t => (t, tableScore_sts sim query t.1 t.2)).mergeSort descBySnd).take k

/-! ## Claims -/

/-- C1: for every query (every deterministic similarity function of the
candidate embedding) and every pair of artifacts with identical
embeddings, one in the current session and one not, `search_artifacts`
scores the same-session artifact at exactly 1.2 times the raw cosine
score of the other; the boost is multiplicative, applied in the scoring
pass that precedes sorting, and deterministic. -/
theorem c1_session_boost (sim : List ℚ → ℚ) (sid : String) (a b : Artifact) (e : List ℚ)
    (ha : a.embedding = some e) (hb : b.embedding = some e) (he : e.isEmpty = false)
    (hsa : a.session_id = sid) (hsb : b.session_id ≠ sid) :
    scoredArtifacts sim sid [a, b] = [(a, sim e * (12 / 10)), (b, sim e)] ∧
    sim e * (12 / 10) = (12 / 10) * sim e ∧
    (search_artifacts sim sid false [a, b] 2).Perm [(a, sim e * (12 / 10)), (b, sim e)] := by
  have he2 : e ≠ [] := by simpa [List.isEmpty_iff] using he
  have hscored : scoredArtifacts sim sid [a, b] = [(a, sim e * (12 / 10)), (b, sim e)] := by
    simp [scoredArtifacts, ha, hb, he2, boostScore, hsa, hsb]
  refine ⟨hscored, mul_comm _ _, ?_⟩
  have hres : search_artifacts sim sid false [a, b] 2
      = ((scoredArtifacts sim sid [a, b]).mergeSort descBySnd).take 2 := by
    unfold search_artifacts
    simp [ha, hb]
  rw [hres, hscored]
  exact rankTake_all _ 2 (by simp)

/-- Witness for C1 at a concrete query, similarity function and pair of
artifacts. -/
theorem c1_session_boost_witness :
    scoredArtifacts (fun v => v.headD 0) "s1"
        [⟨"A1", "n", "d", "c", "t", "", "s1", some [1]⟩,
         ⟨"A2", "n", "d", "c", "t", "", "s2", some [1]⟩] =
      [(⟨"A1", "n", "d", "c", "t", "", "s1", some [1]⟩, (1 : ℚ) * (12 / 10)),
       (⟨"A2", "n", "d", "c", "t", "", "s2", some [1]⟩, (1 : ℚ))] ∧
    (1 : ℚ) * (12 / 10) = (12 / 10) * (1 : ℚ) ∧
    (search_artifacts (fun v => v.headD 0) "s1" false
        [⟨"A1", "n", "d", "c", "t", "", "s1", some [1]⟩,
         ⟨"A2", "n", "d", "c", "t", "", "s2", some [1]⟩] 2).Perm
      [(⟨"A1", "n", "d", "c", "t", "", "s1", some [1]⟩, (1 : ℚ) * (12 / 10)),
       (⟨"A2", "n", "d", "c", "t", "", "s2", some [1]⟩, (1 : ℚ))] :=
  c1_session_boost (fun v => v.headD 0) "s1" _ _ [1] rfl rfl rfl rfl (by decide)

/-- C6 counterexample: in the `search_table_schema` ranking, the table
named "rooms" exactly matches a token of the query "rooms", yet with a
similarity function that returns 0 its assigned score is 8/10, below
the claimed 0.95 floor — only `text_to_sql` has the 0.95 exact-match
floor. -/
theorem c6_counterexample :
    ("rooms".toList ∈ splitWs "rooms".toList) ∧
    tableScore_sts (fun _ => 0) "rooms".toList "rooms".toList [] = 8 / 10 ∧
    tableScore_sts (fun _ => 0) "rooms".toList "rooms".toList [] < 95 / 100 := by
  have hc : ((splitWs "rooms".toList).any fun kw => pyContains "rooms".toList kw) = true := by
    decide
  have hscore : tableScore_sts (fun _ => 0) "rooms".toList "rooms".toList [] = 8 / 10 := by
    simp only [tableScore_sts, maxColSim, List.foldl_nil, hc, if_true]
    rw [max_eq_right (by norm_num : (0 : ℚ) ≤ 8 / 10)]
  exact ⟨by decide, hscore, by rw [hscore]; norm_num⟩

/-- C6 (amended): in the `text_to_sql` ranking an exact token match of
the table name floors the score at 0.95 and keyword containment floors
it at 0.8; in the `search_table_schema` ranking only the 0.8 floor
applies, including to exact name matches, regardless of how low the
cosine similarity is. -/
theorem c6_lexical_floors :
    (∀ (sim : List ℚ → ℚ) (q name : List Char) cols, name ∈ splitWs q →
        95 / 100 ≤ tableScore_t2s sim q name cols) ∧
    (∀ (sim : List ℚ → ℚ) (q name : List Char) cols kw,
        kw ∈ splitWs q → pyContains name kw = true →
        8 / 10 ≤ tableScore_t2s sim q name cols) ∧
    (∀ (sim : List ℚ → ℚ) (q name : List Char) cols kw,
        kw ∈ splitWs q → pyContains name kw = true →
        8 / 10 ≤ tableScore_sts sim q name cols) ∧
    (∀ (sim : List ℚ → ℚ) (q name : List Char) cols, name ∈ splitWs q →
        8 / 10 ≤ tableScore_sts sim q name cols) := by
  have hname_ne : ∀ (name kw : List Char), kw ≠ [] → pyContains name kw = true →
      name.isEmpty = false := by
    intro name kw hkw hc
    cases name with
    | nil => exact absurd (pyContains_nil_needle hc) hkw
    | cons c t => rfl
  have h1 : ∀ (sim : List ℚ → ℚ) (q name : List Char) cols, name ∈ splitWs q →
      95 / 100 ≤ tableScore_t2s sim q name cols := by
    intro sim q name cols hmem
    have hne : name.isEmpty = false := by
      have := splitWs_mem_ne_nil hmem
      cases name with
      | nil => exact absurd rfl this
      | cons c t => rfl
    have hc : pyContains q name = true := pyContains_of_token hmem
    have hg : tableScore_t2s sim q name cols = max (maxColSim sim cols) (95 / 100) := by
      simp [tableScore_t2s, hne, hc]
    rw [hg]
    exact le_max_right _ _
  have h3 : ∀ (sim : List ℚ → ℚ) (q name : List Char) cols kw,
      kw ∈ splitWs q → pyContains name kw = true →
      8 / 10 ≤ tableScore_sts sim q name cols := by
    intro sim q name cols kw hkw hc
    have hany : ((splitWs q).any fun t => pyContains name t) = true :=
      List.any_eq_true.mpr ⟨kw, hkw, hc⟩
    have hg : tableScore_sts sim q name cols = max (maxColSim sim cols) (8 / 10) := by
      simp [tableScore_sts, hany]
    rw [hg]
    exact le_max_right _ _
  refine ⟨h1, ?_, h3, ?_⟩
  · intro sim q name cols kw hkw hc
    by_cases hfirst : (!name.isEmpty && pyContains q name) = true
    · have hg : tableScore_t2s sim q name cols = max (maxColSim sim cols) (95 / 100) := by
        simp [tableScore_t2s, hfirst]
      have : 95 / 100 ≤ tableScore_t2s sim q name cols := by
        rw [hg]
        exact le_max_right _ _
      exact le_trans (by norm_num) this
    · have hne : name.isEmpty = false := hname_ne name kw (splitWs_mem_ne_nil hkw) hc
      have hany : ((splitWs q).any fun t => pyContains name t) = true :=
        List.any_eq_true.mpr ⟨kw, hkw, hc⟩
      have hqn : pyContains q name = false := by
        cases hqc : pyContains q name with
        | false => rfl
        | true => exact absurd (by simp [hne, hqc]) hfirst
      have hg : tableScore_t2s sim q name cols = max (maxColSim sim cols) (8 / 10) := by
        simp [tableScore_t2s, hne, hqn, hany]
      rw [hg]
      exact le_max_right _ _
  · intro sim q name cols hmem
    exact h3 sim q name cols name hmem (by
      have := pyContains_of_decomp [] name []
      simpa using this)

/-- Witness for the amended C6 floors at concrete tables and queries. -/
theorem c6_lexical_floors_witness :
    95 / 100 ≤ tableScore_t2s (fun _ => 0) "list rooms".toList "rooms".toList [] ∧
    8 / 10 ≤ tableScore_t2s (fun _ => 0) "rooms data".toList "meeting_rooms".toList [] ∧
    8 / 10 ≤ tableScore_sts (fun _ => 0) "rooms data".toList "meeting_rooms".toList [] ∧
    8 / 10 ≤ tableScore_sts (fun _ => 0) "list rooms".toList "rooms".toList [] :=
  ⟨c6_lexical_floors.1 (fun _ => 0) _ _ [] (by decide),
   c6_lexical_floors.2.1 (fun _ => 0) _ _ [] "rooms".toList (by decide) (by decide),
   c6_lexical_floors.2.2.1 (fun _ => 0) _ _ [] "rooms".toList (by decide) (by decide),
   c6_lexical_floors.2.2.2 (fun _ => 0) _ _ [] (by decide)⟩

/-- C7: both ranking sites return at most k entries sorted by score in
descending order (all candidates, still sorted, when fewer than k
exist), and `similarity_search` excludes every candidate whose
embedding is null or empty instead of scoring it as zero. -/
theorem c7_ranker_top_k (sim : List ℚ → ℚ) (nodes : List GraphNode) (k : ℕ)
    (query : List Char) (tables : List (List Char × List (Option (List ℚ)))) :
    (similarity_search sim nodes k).length ≤ k ∧
    (similarity_search sim nodes k).Pairwise (fun x y => y.2 ≤ x.2) ∧
    ((similarityScored sim (nodes.filter fun n => n.embedding.isSome)).length ≤ k →
      (similarity_search sim nodes k).Perm
        (similarityScored sim (nodes.filter fun n => n.embedding.isSome))) ∧
    (∀ p ∈ similarity_search sim nodes k, ∃ v, p.1.embedding = some v ∧ v.isEmpty = false) ∧
    (search_table_schema_rank sim query tables k).length ≤ k ∧
    (search_table_schema_rank sim query tables k).Pairwise (fun x y => y.2 ≤ x.2) := by
  have hdef : similarity_search sim nodes k
      = ((similarityScored sim (nodes.filter fun n => n.embedding.isSome)).mergeSort
          descBySnd).take k := rfl
  refine ⟨?_, ?_, ?_, ?_, ?_, ?_⟩
  · rw [hdef]; exact rankTake_length _ k
  · rw [hdef]; exact rankTake_sorted _ k
  · intro hlen
    rw [hdef]
    exact rankTake_all _ k hlen
  · intro p hp
    rw [hdef] at hp
    exact similarityScored_mem (rankTake_mem hp)
  · exact rankTake_length _ k
  · exact rankTake_sorted _ k

/-- Witness for C7 at a concrete candidate list (one embedded node, one
node without a vector) and a concrete table list. -/
theorem c7_ranker_top_k_witness :
    (similarity_search (fun v => v.headD 0)
        [⟨"Formula", some [1]⟩, ⟨"Concept", none⟩] 3).Perm
      (similarityScored (fun v => v.headD 0)
        ([⟨"Formula", some [1]⟩, ⟨"Concept", none⟩].filter fun n => n.embedding.isSome)) ∧
    ∃ v, (⟨"Formula", some [1]⟩ : GraphNode).embedding = some v ∧ v.isEmpty = false := by
  have h := c7_ranker_top_k (fun v => v.headD 0)
    [⟨"Formula", some [1]⟩, ⟨"Concept", none⟩] 3 "q".toList []
  have hperm := h.2.2.1 (by decide)
  refine ⟨hperm, ?_⟩
  have hscored : ((⟨"Formula", some [1]⟩ : GraphNode), (1 : ℚ)) ∈
      similarityScored (fun v => v.headD 0)
        ([⟨"Formula", some [1]⟩, ⟨"Concept", none⟩].filter fun n => n.embedding.isSome) := by
    decide
  exact h.2.2.2.1 _ (hperm.mem_iff.mpr hscored)

theorem pyContains_any_nil (hay : List Char) : pyContains hay [] = true := by
  cases hay <;> rfl

theorem pyStartsWith_extend {hay n : List Char} (b : List Char)
    (h : pyStartsWith hay n = true) : pyStartsWith (hay ++ b) n = true := by
  induction n generalizing hay with
  | nil =>
    cases hab : hay ++ b with
    | nil => rfl
    | cons c t => rfl
  | cons m ms ih =>
    cases hay with
    | nil => simp [pyStartsWith] at h
    | cons c cs =>
      rw [pyStartsWith, Bool.and_eq_true] at h
      show ((c = m : Bool) && pyStartsWith (cs ++ b) ms) = true
      rw [h.1, ih h.2]
      rfl

theorem pyContains_extend {hay n : List Char} (b : List Char)
    (h : pyContains hay n = true) : pyContains (hay ++ b) n = true := by
  induction hay with
  | nil =>
    have hn := pyContains_nil_needle h
    subst hn
    exact pyContains_any_nil _
  | cons c t ih =>
    rw [pyContains, Bool.or_eq_true] at h
    rcases h with hs | hc
    · show (pyStartsWith ((c :: t) ++ b) n || pyContains (t ++ b) n) = true
      rw [pyStartsWith_extend b hs, Bool.true_or]
    · show (pyStartsWith ((c :: t) ++ b) n || pyContains (t ++ b) n) = true
      rw [ih hc, Bool.or_true]

theorem strContains_self (n : String) : strContains n n := by
  unfold strContains
  have := pyContains_self_append n.toList []
  simpa using this

theorem strContains_append_r (x y n : String) (h : strContains x n) :
    strContains (x ++ y) n := by
  unfold strContains at h ⊢
  rw [strToList_append]
  exact pyContains_extend _ h

theorem strContains_append_l (x y n : String) (h : strContains y n) :
    strContains (x ++ y) n := by
  unfold strContains at h ⊢
  rw [strToList_append]
  exact pyContains_append_left x.toList h

/-- Containment helpers for the response templates. -/
theorem text_to_sql_wrap_contains_body (question gsql tables body : String) :
    strContains (text_to_sql_wrap question gsql tables body) body := by
  unfold text_to_sql_wrap
  repeat first
    | exact strContains_append_l _ _ _ (strContains_self _)
    | exact strContains_self _
    | apply strContains_append_r

theorem text_to_sql_wrap_contains_gsql (question gsql tables body : String) :
    strContains (text_to_sql_wrap question gsql tables body) gsql := by
  unfold text_to_sql_wrap
  repeat first
    | exact strContains_append_l _ _ _ (strContains_self _)
    | exact strContains_self _
    | apply strContains_append_r

/-- C3: `execute` classifies statements lexically by leading keyword
(`strip().upper().startswith("SELECT")`); a read returns rows with the
display capped at the fixed limit 25 and, when the total exceeds the
cap, a reported "top 25 of N" count; a write commits and the result
reports the affected-row count.  Holds for both `run_postgres_sql` and
the `text_to_sql` execution step. -/
theorem c3_sql_classification (mdTable : List Row → String)
    (sql question gsql tables : String) (rows : List Row) (rowcount : ℤ) :
    (isSelect sql = true →
      (run_postgres_sql mdTable sql (.ok rows rowcount)).displayed = rows.take 25 ∧
      (run_postgres_sql mdTable sql (.ok rows rowcount)).committed = false ∧
      (rows.length > 25 →
        strContains (run_postgres_sql mdTable sql (.ok rows rowcount)).output
          ("**총 " ++ toString rows.length ++ "건** 중 상위 " ++ toString (25 : ℕ)
            ++ "건을 표시합니다."))) ∧
    (isSelect sql = false →
      (run_postgres_sql mdTable sql (.ok rows rowcount)).committed = true ∧
      strContains (run_postgres_sql mdTable sql (.ok rows rowcount)).output
        (toString rowcount)) ∧
    (isSelect gsql = true →
      (text_to_sql_exec mdTable question gsql tables (.ok rows rowcount)).displayed
          = rows.take 25 ∧
      (rows.length > 25 →
        strContains (text_to_sql_exec mdTable question gsql tables (.ok rows rowcount)).output
          ("**총 " ++ toString rows.length ++ "건** 중 상위 " ++ toString (25 : ℕ)
            ++ "건을 표시합니다.\n\n" ++ mdTable (rows.take 25)
            ++ "\n\n> 💡 더 많은 데이터가 필요하시면 조건을 추가해주세요."))) ∧
    (isSelect gsql = false →
      (text_to_sql_exec mdTable question gsql tables (.ok rows rowcount)).committed = true ∧
      strContains (text_to_sql_exec mdTable question gsql tables (.ok rows rowcount)).output
        ("쿼리가 성공적으로 실행되었습니다. 영향받은 행: " ++ toString rowcount)) := by
  refine ⟨?_, ?_, ?_, ?_⟩
  · intro hsel
    by_cases hemp : rows.isEmpty
    · have hrows : rows = [] := List.isEmpty_iff.mp hemp
      subst hrows
      refine ⟨by simp [run_postgres_sql, hsel], by simp [run_postgres_sql, hsel], ?_⟩
      intro hgt
      simp at hgt
    · by_cases hgt : rows.length > 25
      · have hval : run_postgres_sql mdTable sql (.ok rows rowcount) =
            { output := "## 📋 SQL 실행 결과\n\n```sql\n" ++ sql ++ "\n```\n\n"
                ++ ("**총 " ++ toString rows.length ++ "건** 중 상위 " ++ toString (25 : ℕ)
                    ++ "건을 표시합니다.")
                ++ "\n\n" ++ mdTable (rows.take 25) ++ "\n\n**컬럼**: "
                ++ String.intercalate ", " ((rows.headD []).map Prod.fst)
                ++ "\n\n> 💡 더 많은 데이터가 필요하시면 조건을 추가해주세요." ++ "\n"
              displayed := rows.take 25
              committed := false
              rolledBack := false } := by
          simp [run_postgres_sql, hsel, hemp, hgt]
        rw [hval]
        refine ⟨rfl, rfl, fun _ => ?_⟩
        repeat first
          | exact strContains_append_l _ _ _ (strContains_self _)
          | exact strContains_self _
          | apply strContains_append_r
      · have hle : rows.length ≤ 25 := by omega
        have hval : run_postgres_sql mdTable sql (.ok rows rowcount) =
            { output := "## 📋 SQL 실행 결과\n\n```sql\n" ++ sql ++ "\n```\n\n"
                ++ ("**조회 결과**: " ++ toString rows.length ++ "건")
                ++ "\n\n" ++ mdTable rows ++ "\n\n**컬럼**: "
                ++ String.intercalate ", " ((rows.headD []).map Prod.fst) ++ "" ++ "\n"
              displayed := rows
              committed := false
              rolledBack := false } := by
          simp [run_postgres_sql, hsel, hemp, hgt]
        rw [hval]
        exact ⟨(List.take_of_length_le hle).symm, rfl, fun hgt2 => absurd hgt2 hgt⟩
  · intro hsel
    have hval : run_postgres_sql mdTable sql (.ok rows rowcount) =
        { output := "## SQL 실행 결과\n\n```sql\n" ++ sql
            ++ "\n```\n\n쿼리가 성공적으로 실행되었습니다.\n- 영향받은 행: "
            ++ toString rowcount ++ "\n"
          displayed := []
          committed := true
          rolledBack := false } := by
      simp [run_postgres_sql, hsel]
    rw [hval]
    refine ⟨rfl, ?_⟩
    repeat first
      | exact strContains_append_l _ _ _ (strContains_self _)
      | exact strContains_self _
      | apply strContains_append_r
  · intro hsel
    by_cases hemp : rows.isEmpty
    · have hrows : rows = [] := List.isEmpty_iff.mp hemp
      subst hrows
      refine ⟨by simp [text_to_sql_exec, hsel], ?_⟩
      intro hgt
      simp at hgt
    · by_cases hgt : rows.length > 25
      · have hval : text_to_sql_exec mdTable question gsql tables (.ok rows rowcount) =
            { output := text_to_sql_wrap question gsql tables
                ("**총 " ++ toString rows.length ++ "건** 중 상위 " ++ toString (25 : ℕ)
                  ++ "건을 표시합니다.\n\n" ++ mdTable (rows.take 25)
                  ++ "\n\n> 💡 더 많은 데이터가 필요하시면 조건을 추가해주세요.")
              displayed := rows.take 25
              committed := false
              rolledBack := false } := by
          simp [text_to_sql_exec, hsel, hemp, hgt]
        rw [hval]
        exact ⟨rfl, fun _ => text_to_sql_wrap_contains_body _ _ _ _⟩
      · have hle : rows.length ≤ 25 := by omega
        have hval : text_to_sql_exec mdTable question gsql tables (.ok rows rowcount) =
            { output := text_to_sql_wrap question gsql tables
                ("**조회 결과**: " ++ toString rows.length ++ "건\n\n" ++ mdTable rows)
              displayed := rows
              committed := false
              rolledBack := false } := by
          simp [text_to_sql_exec, hsel, hemp, hgt]
        rw [hval]
        exact ⟨(List.take_of_length_le hle).symm, fun hgt2 => absurd hgt2 hgt⟩
  · intro hsel
    have hval : text_to_sql_exec mdTable question gsql tables (.ok rows rowcount) =
        { output := text_to_sql_wrap question gsql tables
            ("쿼리가 성공적으로 실행되었습니다. 영향받은 행: " ++ toString rowcount)
          displayed := []
          committed := true
          rolledBack := false } := by
      simp [text_to_sql_exec, hsel]
    rw [hval]
    exact ⟨rfl, text_to_sql_wrap_contains_body _ _ _ _⟩

/-- Witness for C3: a 26-row SELECT shows 25 rows with a "top 25 of 26"
count, and write statements commit with a reported rowcount. -/
theorem c3_sql_classification_witness :
    (run_postgres_sql (fun _ => "T") "SELECT * FROM ins"
        (.ok (List.replicate 26 ([("a", "1")] : Row)) 0)).displayed
      = (List.replicate 26 ([("a", "1")] : Row)).take 25 ∧
    strContains (run_postgres_sql (fun _ => "T") "SELECT * FROM ins"
        (.ok (List.replicate 26 ([("a", "1")] : Row)) 0)).output
      ("**총 " ++ toString (List.replicate 26 ([("a", "1")] : Row)).length ++ "건** 중 상위 "
        ++ toString (25 : ℕ) ++ "건을 표시합니다.") ∧
    (run_postgres_sql (fun _ => "T") "DELETE FROM ins" (.ok [] 3)).committed = true ∧
    (text_to_sql_exec (fun _ => "T") "q" "SELECT * FROM ins" "t"
        (.ok (List.replicate 26 ([("a", "1")] : Row)) 0)).displayed
      = (List.replicate 26 ([("a", "1")] : Row)).take 25 ∧
    (text_to_sql_exec (fun _ => "T") "q" "UPDATE ins SET a = 1" "t" (.ok [] 2)).committed
      = true := by
  refine ⟨?_, ?_, ?_, ?_, ?_⟩
  · exact ((c3_sql_classification (fun _ => "T") "SELECT * FROM ins" "q" "g" "t"
      (List.replicate 26 ([("a", "1")] : Row)) 0).1 (by decide)).1
  · exact (((c3_sql_classification (fun _ => "T") "SELECT * FROM ins" "q" "g" "t"
      (List.replicate 26 ([("a", "1")] : Row)) 0).1 (by decide)).2.2 (by decide))
  · exact ((c3_sql_classification (fun _ => "T") "DELETE FROM ins" "q" "g" "t" [] 3).2.1
      (by decide)).1
  · exact ((c3_sql_classification (fun _ => "T") "S" "q" "SELECT * FROM ins" "t"
      (List.replicate 26 ([("a", "1")] : Row)) 0).2.2.1 (by decide)).1
  · exact ((c3_sql_classification (fun _ => "T") "S" "q" "UPDATE ins SET a = 1" "t" [] 2).2.2.2
      (by decide)).1

/-- C4: a failed statement rolls the transaction back and the failure is
returned as error text containing both the failing statement and the
error message (not raised: both models are total functions into
`PgResult`); holds for `run_postgres_sql` and the `text_to_sql`
execution step. -/
theorem c4_error_rollback (mdTable : List Row → String)
    (sql e question gsql tables : String) :
    (run_postgres_sql mdTable sql (.err e)).rolledBack = true ∧
    (run_postgres_sql mdTable sql (.err e)).committed = false ∧
    strContains (run_postgres_sql mdTable sql (.err e)).output sql ∧
    strContains (run_postgres_sql mdTable sql (.err e)).output e ∧
    (text_to_sql_exec mdTable question gsql tables (.err e)).rolledBack = true ∧
    (text_to_sql_exec mdTable question gsql tables (.err e)).committed = false ∧
    strContains (text_to_sql_exec mdTable question gsql tables (.err e)).output gsql ∧
    strContains (text_to_sql_exec mdTable question gsql tables (.err e)).output e := by
  have h1 : run_postgres_sql mdTable sql (.err e) =
      { output := "## SQL 실행 오류\n\n```sql\n" ++ sql ++ "\n```\n\n**오류**: " ++ e ++ "\n"
        displayed := []
        committed := false
        rolledBack := true } := rfl
  have h2 : text_to_sql_exec mdTable question gsql tables (.err e) =
      { output := "## SQL 실행 오류\n\n**생성된 SQL**:\n```sql\n" ++ gsql
          ++ "\n```\n\n**오류**: " ++ e
          ++ "\n\n스키마를 확인하거나 질문을 더 구체적으로 해주세요.\n"
        displayed := []
        committed := false
        rolledBack := true } := rfl
  rw [h1, h2]
  refine ⟨rfl, rfl, ?_, ?_, rfl, rfl, ?_, ?_⟩ <;>
    repeat first
      | exact strContains_append_l _ _ _ (strContains_self _)
      | exact strContains_self _
      | apply strContains_append_r

/-- C5 counterexample: when the embedding provider fails, `save_artifact`
stores nothing at all — the store is unchanged, the tool returns an
error string, and the artifact is not retrievable by id — contradicting
the claim that the content is stored without a vector. -/
theorem c5_counterexample :
    (save_artifact (fun _ => .error "embed fail") [] "A1" "s1" "보고서" "설명" "내용"
        "analysis_result" "").1 = [] ∧
    (save_artifact (fun _ => .error "embed fail") [] "A1" "s1" "보고서" "설명" "내용"
        "analysis_result" "").2 = "Artifact save error: embed fail" ∧
    get_artifact_content
        (save_artifact (fun _ => .error "embed fail") [] "A1" "s1" "보고서" "설명" "내용"
          "analysis_result" "").1 "A1" = none :=
  ⟨rfl, rfl, rfl⟩

/-- C5 (amended): when embedding computation fails, the save is aborted
inside the catch-all handler: the store is unchanged and the tool
returns an error string (`save_artifact`) or an empty id
(`_auto_save_artifact`) instead of raising; artifacts without a truthy
embedding are excluded from similarity search, and any stored artifact
is retrievable by id via `get_artifact_content`. -/
theorem c5_embed_failure_aborts :
    (∀ (embed : String → Except String (List ℚ)) (store : List Artifact)
        (freshId sid name description content atype src e : String),
        embed (name ++ ": " ++ description ++ "\n" ++ pySlice content 3000) = .error e →
        (save_artifact embed store freshId sid name description content atype src).1 = store ∧
        (save_artifact embed store freshId sid name description content atype src).2
          = "Artifact save error: " ++ e ∧
        (auto_save_artifact embed store freshId sid name description content atype src).1
          = store ∧
        (auto_save_artifact embed store freshId sid name description content atype src).2
          = "") ∧
    (∀ (sim : List ℚ → ℚ) (sid : String) (co : Bool) (store : List Artifact) (k : ℕ)
        (p : Artifact × ℚ), p ∈ search_artifacts sim sid co store k →
        ∃ v, p.1.embedding = some v ∧ v.isEmpty = false) ∧
    (∀ (store : List Artifact) (a : Artifact), a ∈ store →
        ∃ b, get_artifact_content store a.id = some b ∧ b.id = a.id) := by
  refine ⟨?_, ?_, ?_⟩
  · intro embed store freshId sid name description content atype src e he
    refine ⟨?_, ?_, ?_, ?_⟩ <;> simp [save_artifact, auto_save_artifact, he]
  · intro sim sid co store k p hp
    have hdef : search_artifacts sim sid co store k =
        ((scoredArtifacts sim sid
            (store.filter fun a => (!co || a.session_id == sid) && a.embedding.isSome)).mergeSort
          descBySnd).take k := rfl
    rw [hdef] at hp
    exact scoredArtifacts_mem (rankTake_mem hp)
  · intro store a ha
    induction store with
    | nil => simp at ha
    | cons c rest ih =>
      by_cases hc : c.id = a.id
      · exact ⟨c, by simp [get_artifact_content, findById, hc], hc⟩
      · rcases List.mem_cons.mp ha with heq | hm
        · exact absurd (heq ▸ rfl) hc
        · rcases ih hm with ⟨b, hb1, hb2⟩
          exact ⟨b, by simpa [get_artifact_content, findById, hc] using hb1, hb2⟩

/-- Witness for the amended C5: a failing embed leaves an empty store
untouched, and a stored artifact without a vector is excluded from
search results while its record is retrievable by id. -/
theorem c5_embed_failure_aborts_witness :
    (save_artifact (fun _ => .error "x") [] "A1" "s1" "n" "d" "c" "t" "").1 = [] ∧
    (∃ v, ((⟨"A2", "n", "d", "c", "t", "", "s1", some [1]⟩ : Artifact), (1 : ℚ) * (12 / 10)).1.embedding
        = some v ∧ v.isEmpty = false) ∧
    (∃ b, get_artifact_content [(⟨"A3", "n", "d", "c", "t", "", "s1", none⟩ : Artifact)]
        (⟨"A3", "n", "d", "c", "t", "", "s1", none⟩ : Artifact).id = some b ∧
        b.id = (⟨"A3", "n", "d", "c", "t", "", "s1", none⟩ : Artifact).id) := by
  refine ⟨(c5_embed_failure_aborts.1 (fun _ => .error "x") [] "A1" "s1" "n" "d" "c" "t" "" "x"
    rfl).1, ?_, ?_⟩
  · have hmem : ((⟨"A2", "n", "d", "c", "t", "", "s1", some [1]⟩ : Artifact), (1 : ℚ) * (12 / 10))
        ∈ search_artifacts (fun v => v.headD 0) "s1" true
          [⟨"A2", "n", "d", "c", "t", "", "s1", some [1]⟩] 5 := by
      simp [search_artifacts, scoredArtifacts, boostScore]
    exact c5_embed_failure_aborts.2.1 (fun v => v.headD 0) "s1" true
      [⟨"A2", "n", "d", "c", "t", "", "s1", some [1]⟩] 5 _ hmem
  · exact c5_embed_failure_aborts.2.2 [⟨"A3", "n", "d", "c", "t", "", "s1", none⟩]
      ⟨"A3", "n", "d", "c", "t", "", "s1", none⟩ (by simp)

/-- C8: `save` followed by `get` on the fresh id returns content equal
to the input truncated at the fixed constant 50,000 characters;
truncation happens at storage time — retrieval returns a stored record
unchanged. -/
theorem c8_save_roundtrip (embed : String → Except String (List ℚ)) (store : List Artifact)
    (freshId sid name description content atype src : String) (v : List ℚ)
    (hembed : embed (name ++ ": " ++ description ++ "\n" ++ pySlice content 3000) = .ok v)
    (hfresh : ∀ b ∈ store, b.id ≠ freshId) :
    (∃ a, get_artifact_content
          (save_artifact embed store freshId sid name description content atype src).1 freshId
        = some a ∧ a.content = pySlice content 50000 ∧ a.id = freshId) ∧
    (∀ (st : List Artifact) (aid : String) (a : Artifact),
        get_artifact_content st aid = some a → a ∈ st) := by
  constructor
  · have hsave : (save_artifact embed store freshId sid name description content atype src).1
        = store ++ [⟨freshId, name, description, pySlice content 50000, atype, src, sid, some v⟩] := by
      simp [save_artifact, hembed]
    refine ⟨⟨freshId, name, description, pySlice content 50000, atype, src, sid, some v⟩, ?_, rfl, rfl⟩
    rw [hsave]
    exact findById_append_fresh store _ (fun b hb => hfresh b hb)
  · intro st aid a h
    exact findById_mem h

/-- Witness for C8 at a concrete save and retrieval. -/
theorem c8_save_roundtrip_witness :
    ∃ a, get_artifact_content
        (save_artifact (fun _ => .ok [1]) [] "A1" "s1" "n" "d" "contents" "t" "").1 "A1"
      = some a ∧ a.content = pySlice "contents" 50000 ∧ a.id = "A1" :=
  (c8_save_roundtrip (fun _ => .ok [1]) [] "A1" "s1" "n" "d" "contents" "t" "" [1]
    rfl (by simp)).1

/-- C9: the consumer yields a prefix of the worker's enqueue order
(FIFO preserved), the yielded sequence ends with a `done` or `error`
event, the worker always enqueues `done` as its final event even after
an error, and the worker thread is joined (with the bounded
`timeout=1`) before the sequence closes. -/
theorem c9_stream_order (body : List StreamEvent) (exc : Option String) :
    (∃ rest, (consumeRun (workerTrace body exc)).1 ++ rest = workerTrace body exc) ∧
    (∃ pre e, (consumeRun (workerTrace body exc)).1 = pre ++ [e] ∧ isTerminal e = true) ∧
    (workerTrace body exc).getLast? = some .done ∧
    (consumeRun (workerTrace body exc)).2 = true := by
  rcases consumeRun_of_terminal _ (workerTrace_any_terminal body exc) with
    ⟨hpre, hjoin, pre, e, hsplit, hterm⟩
  exact ⟨hpre, ⟨pre, e, hsplit, hterm⟩, workerTrace_getLast body exc, hjoin⟩

/-- C10 counterexample: with a model policy that always requests another
tool call, the loop as constructed in the source has not terminated
after 25 AGENT/TOOLS alternations (the ceiling the spec recommends) nor
after 100 — no explicit maximum step ceiling exists in the source. -/
theorem c10_counterexample :
    runLoop alwaysToolPolicy 25 0 = none ∧ runLoop alwaysToolPolicy 100 0 = none :=
  ⟨runLoop_alwaysTool 25 0, runLoop_alwaysTool 100 0⟩

/-- C10 (amended): the source's control loop has no explicit step
ceiling: it ends exactly when an AGENT turn carries no tool calls, so a
policy that always requests tools never reaches DONE regardless of how
many alternations are allowed, while a tool-free turn ends the loop
immediately. -/
theorem c10_no_step_ceiling :
    (∀ fuel turn, runLoop alwaysToolPolicy fuel turn = none) ∧
    (∀ (policy : ℕ → Bool) (fuel turn : ℕ), policy turn = false →
        runLoop policy (fuel + 1) turn = some (turn + 1)) := by
  refine ⟨fun fuel turn => runLoop_alwaysTool fuel turn, ?_⟩
  intro policy fuel turn hp
  simp [runLoop, tools_condition, hp]

/-- Witness for the amended C10 at concrete fuels and policies. -/
theorem c10_no_step_ceiling_witness :
    runLoop alwaysToolPolicy 30 0 = none ∧ runLoop (fun _ => false) 1 0 = some 1 :=
  ⟨c10_no_step_ceiling.1 30 0, c10_no_step_ceiling.2 (fun _ => false) 0 0 rfl⟩

/-- C2 counterexample: `extract_data_to_csv` performs its filesystem and
dataframe work with no exception handler, so an exception raised in its
body (here: a failed CSV write) escapes the handler instead of being
returned as an error string — the claimed behavior does not hold for
all registered tools. -/
theorem c2_counterexample :
    extract_data_to_csv (.error "No space left on device") "기후 데이터" "" =
      .error "No space left on device" ∧
    (toolsStep [extract_data_to_csv (.error "No space left on device") "기후 데이터" ""]).isOk
      = false :=
  ⟨rfl, rfl⟩

/-- C2 (amended): tool handlers whose body is wrapped in a catch-all
`try` (such as `calculate_formula`) return a result string on every
input — on an internal exception a non-empty "Calculation error: ..."
text — and a TOOLS step whose handlers all return strings hands control
back to AGENT; but not every registered tool does this:
`extract_data_to_csv` has no handler, so a body exception propagates
out of the tool. -/
theorem c2_tool_error_text :
    (∀ (e expression : String) (evalOutcome : Except String ℚ)
        (render : CalcOutcome → String),
        calculate_formula (.error e) expression evalOutcome render =
          .ok ("Calculation error: " ++ e) ∧ ("Calculation error: " ++ e) ≠ "") ∧
    (∀ (parseVars : Except String (List (String × ℚ))) (expression : String)
        (evalOutcome : Except String ℚ) (render : CalcOutcome → String),
        ∃ s, calculate_formula parseVars expression evalOutcome render = .ok s) ∧
    (∀ (results : List (Except String String)) (mp : List String × Phase),
        toolsStep results = .ok mp → mp.2 = .AGENT) ∧
    (∀ (e desc aid : String), extract_data_to_csv (.error e) desc aid = .error e) := by
  refine ⟨?_, ?_, ?_, fun e desc aid => rfl⟩
  · intro e expression evalOutcome render
    refine ⟨rfl, ?_⟩
    intro h
    have hd : ("Calculation error: " ++ e).data = "".data := congrArg String.data h
    rw [String.data_append] at hd
    rcases List.append_eq_nil.mp hd with ⟨h1, _⟩
    exact absurd h1 (by decide)
  · intro parseVars expression evalOutcome render
    cases parseVars with
    | error e => exact ⟨_, rfl⟩
    | ok vars => exact ⟨_, rfl⟩
  · intro results mp h
    unfold toolsStep at h
    cases hm : results.mapM (fun r => r) with
    | error e => rw [hm] at h; simp [Except.map] at h
    | ok msgs =>
      rw [hm] at h
      simp only [Except.map, Except.ok.injEq] at h
      rw [← h]

/-- Witness for the amended C2 at concrete inputs. -/
theorem c2_tool_error_text_witness :
    calculate_formula (.error "Expecting value") "(I/N)*(L/B)" (.ok 1) (fun _ => "r")
      = .ok ("Calculation error: " ++ "Expecting value") ∧
    ("Calculation error: " ++ "Expecting value") ≠ "" ∧
    ((["r"], Phase.AGENT) : List String × Phase).2 = Phase.AGENT ∧
    extract_data_to_csv (.error "disk full") "질병 통계" "X" = .error "disk full" :=
  ⟨(c2_tool_error_text.1 "Expecting value" "(I/N)*(L/B)" (.ok 1) (fun _ => "r")).1,
   (c2_tool_error_text.1 "Expecting value" "(I/N)*(L/B)" (.ok 1) (fun _ => "r")).2,
   c2_tool_error_text.2.2.1 [Except.ok "r"] (["r"], Phase.AGENT) rfl,
   c2_tool_error_text.2.2.2 "disk full" "질병 통계" "X"⟩
